/-
Verification of the multi-source search aggregation and chunk-and-retrieve
RAG pipeline (Suhani_Bansal variant): a shallow embedding of
`search_agents.py` (MultiSearchAgent), `scraper.py` (WebScraperAgent),
`rag_agent.py` (ImprovedRAGAgent) and the dataclasses of `data_models.py`,
together with theorems about deduplication, index alignment, chunking,
retry exhaustion and keyword retrieval.

Modelling conventions:
- wall-clock durations (`time.time()` differences) are abstracted to 0;
  the literal zero timings of early-return branches are kept as written;
- network and external-library effects (aiohttp fetches, trafilatura and
  BeautifulSoup extraction, the SentenceTransformer encoder, the FAISS
  nearest-neighbour search) are passed in as explicit function arguments;
- Python floats are modelled as rationals; Python `str` case-folding and
  whitespace predicates are modelled with the ASCII `Char` operations of Lean;
- a raised exception is an `Except.error` carrying the message.
-/
import Mathlib

namespace SearchRag

/-! ## Data model (`data_models.py`) -/

/-- `SearchResult` dataclass: one normalized search hit.
The open `metadata` map is dropped (no claim mentions it). -/
structure SearchResult where
  title : String
  url : String
  snippet : String
  source : String
deriving DecidableEq, Repr

/-- `SearchResponse` dataclass: the outcome of one backend invocation. -/
structure SearchResponse where
  success : Bool
  results : List SearchResult
  source : String
  totalResults : Nat
  responseTime : ℚ
  errorMessage : Option String := none
deriving DecidableEq, Repr

/-- `ScrapedContent` dataclass. The `scrape_timestamp` field is dropped
(wall clock); `metadata["method"]` is kept as `method`. -/
structure ScrapedContent where
  url : String
  title : String
  content : String
  textLength : Nat
  success : Bool
  errorMessage : Option String := none
  method : Option String := none
deriving DecidableEq, Repr

/-- `DocumentChunk` dataclass; `metadata["word_count"]` is kept as
`wordCount`. The transient `metadata["similarity_score"]` written during a
query is tracked in the score/chunk pairs of the retrieval functions. -/
structure DocumentChunk where
  content : String
  sourceUrl : String
  chunkIndex : Nat
  wordCount : Nat
deriving DecidableEq, Repr, Inhabited

/-- `RAGResult` dataclass. -/
structure RAGResult where
  query : String
  relevantChunks : List DocumentChunk
  generatedResponse : String
  confidenceScore : ℚ
  sources : List String
  retrievalTime : ℚ
  generationTime : ℚ
deriving DecidableEq, Repr

/-! ## Aggregator (`search_agents.py`, `MultiSearchAgent.search`) -/

/-- The inner loop of `MultiSearchAgent.search` lines 213-216: walk one
results of one successful response, keeping a result whose URL has not been
seen, recording its URL as seen. -/
def addResults : List SearchResult → List SearchResult → List String →
    List SearchResult × List String
  | [], acc, seen => (acc, seen)
  | r :: rs, acc, seen =>
    if r.url ∈ seen then addResults rs acc seen
    else addResults rs (acc ++ [r]) (seen ++ [r.url])

/-- The outer loop of `MultiSearchAgent.search` lines 211-217: fold over
backend responses, merging the results of successful ones and recording
their sources. -/
def mergeAux : List SearchResponse → List SearchResult → List String →
    List String → List SearchResult × List String × List String
  | [], acc, seen, srcs => (acc, seen, srcs)
  | resp :: rest, acc, seen, srcs =>
    if resp.success then
      let p := addResults resp.results acc seen
      mergeAux rest p.1 p.2 (srcs ++ [resp.source])
    else mergeAux rest acc seen srcs

/-- Sort comparator of line 220: the stable Python `sort(key=lambda x:
(len(x.snippet), 1 if x.source == "wikipedia" else 0), reverse=True)`.
`mergeSortLe a b` holds when `a` may come before `b` in the reversed
(descending) order, with ties keeping original order. -/
def wikiFlag (r : SearchResult) : Nat := if r.source = "wikipedia" then 1 else 0

/-- Lexicographic key comparison for the final ranking (descending). -/
def rankLe (a b : SearchResult) : Bool :=
  decide (b.snippet.length < a.snippet.length ∨
    (b.snippet.length = a.snippet.length ∧ wikiFlag b ≤ wikiFlag a))

/-- `MultiSearchAgent.search` lines 210-224, given the already-gathered
per-backend responses: merge with URL dedup, rank, truncate, and report
success iff the merged list is non-empty. `response_time` abstracted to 0. -/
def multiSearch (responses : List SearchResponse) (numResults : Nat) :
    SearchResponse :=
  let m := mergeAux responses [] [] []
  let allResults := m.1
  let sorted := allResults.mergeSort rankLe
  { success := decide (0 < allResults.length)
    results := sorted.take numResults
    source := String.intercalate "+" m.2.2
    totalResults := allResults.length
    responseTime := 0
    errorMessage := none }

/-- The `search_with_semaphore` wrapper (lines 199-205): a backend call
that raises is converted into an empty `success=false` response named after
the agent, so one failing backend does not abort the others. -/
def wrapBackend (call : Except String SearchResponse) (agentName : String) :
    SearchResponse :=
  match call with
  | .ok resp => resp
  | .error e => ⟨false, [], agentName, 0, 0, some e⟩

/-- Concatenation of the result lists of the successful responses, in
response order: the stream of results the dedup loop actually walks. -/
def successConcat (responses : List SearchResponse) : List SearchResult :=
  (responses.filter (fun r => r.success)).flatMap (fun r => r.results)

/-- The results `addResults` appends beyond its accumulator: the results
of `rs` whose URL is neither in `seen` nor already kept earlier in `rs`. -/
def dedupNew : List SearchResult → List String → List SearchResult
  | [], _ => []
  | r :: rs, seen =>
    if r.url ∈ seen then dedupNew rs seen
    else r :: dedupNew rs (seen ++ [r.url])

/-- The results `mergeAux` appends beyond its accumulator. -/
def mergeNew : List SearchResponse → List String → List SearchResult
  | [], _ => []
  | resp :: rest, seen =>
    if resp.success then
      let d := dedupNew resp.results seen
      d ++ mergeNew rest (seen ++ d.map (fun r => r.url))
    else mergeNew rest seen

/-! ## Text utilities shared by scraper and RAG agent -/

/-- Accumulating form of `squeezeRuns`: `inRun` records whether the
previous character belonged to a run being replaced. -/
def squeezeAux (p : Char → Bool) : List Char → Bool → List Char
  | [], _ => []
  | c :: cs, inRun =>
    if p c then
      if inRun then squeezeAux p cs true
      else ' ' :: squeezeAux p cs true
    else c :: squeezeAux p cs false

/-- One regex-substitution step shared by the whitespace-run and
space-run substitutions of the code: replace every maximal run of characters
satisfying `p` by a single space. -/
def squeezeRuns (p : Char → Bool) (cs : List Char) : List Char :=
  squeezeAux p cs false

/-- Python `str.strip()` with no argument: drop leading and trailing
whitespace. -/
def trimData (cs : List Char) : List Char :=
  ((cs.dropWhile Char.isWhitespace).reverse.dropWhile Char.isWhitespace).reverse

/-- `ImprovedRAGAgent._preprocess_text` (rag_agent.py lines 37-40):
lower-case, collapse whitespace runs to single spaces, strip. ASCII
case-folding and whitespace, as in the inputs of the claims. -/
def preprocessText (s : String) : String :=
  String.mk (trimData (squeezeRuns Char.isWhitespace (s.data.map Char.toLower)))

/-- Accumulating splitter behind `pySplit`: `acc` is the reversed current
word. -/
def splitWordsAux : List Char → List Char → List String
  | [], acc => if acc = [] then [] else [String.mk acc.reverse]
  | c :: cs, acc =>
    if c.isWhitespace then
      (if acc = [] then [] else [String.mk acc.reverse]) ++ splitWordsAux cs []
    else splitWordsAux cs (c :: acc)

/-- Python `str.split()` with no argument: split on whitespace runs and
drop empty pieces. -/
def pySplit (s : String) : List String := splitWordsAux s.data []

/-- `" ".join(...)`. -/
def joinSpace : List String → String
  | [] => ""
  | [w] => w
  | w :: rest => w ++ " " ++ joinSpace rest

/-- Characters kept by the second `_clean_text` step (the negated
character class): word characters, whitespace and
the listed punctuation. -/
def allowedChar (c : Char) : Bool :=
  c.isAlphanum || c = '_' || c.isWhitespace ||
  c ∈ ['.', ',', '!', '?', ';', ':', '(', ')', '-', '"']

/-- `WebScraperAgent._clean_text` (scraper.py lines 49-52): collapse
whitespace runs, drop disallowed characters, collapse space runs, strip. -/
def cleanText (s : String) : String :=
  let s1 := squeezeRuns Char.isWhitespace s.data
  let s2 := s1.filter allowedChar
  String.mk (trimData (squeezeRuns (fun c => c = ' ') s2))

/-! ## Scraper (`scraper.py`, `WebScraperAgent.scrape_url`) -/

/-- Outcome of one `session.get` attempt, as observed by `scrape_url`:
an HTTP 200 with a body, a non-200 status, or a raised exception. -/
inductive FetchOutcome where
  | ok (html : String)
  | httpError (status : Nat)
  | exn (msg : String)
deriving DecidableEq, Repr

/-- Whether an attempt outcome reaches an early `return` (a 200 always
does: both extraction paths return `success=True`). -/
def FetchOutcome.isOk : FetchOutcome → Bool
  | .ok _ => true
  | _ => false

/-- Whether an attempt outcome raised (the only branch that sleeps). -/
def FetchOutcome.isExn : FetchOutcome → Bool
  | .exn _ => true
  | _ => false

/-- The `error_msg` recorded by a failing attempt (lines 87 and 89). -/
def failMsg : FetchOutcome → String
  | .httpError status => "HTTP " ++ toString status
  | .exn msg => msg
  | .ok _ => ""

/-- The external extraction collaborators of a 200 response:
`SCRAPING_AVAILABLE`, `trafilatura.extract` (None or a string), the title
computation (`soup.title...` or "No Title"), and the
BeautifulSoup structural fallback text. -/
structure ScrapeEnv where
  scrapingAvailable : Bool
  trafilatura : String → Option String
  titleOf : String → String
  bs4Text : String → String

/-- Extraction from a 200 body (scraper.py lines 62-85): trafilatura
first when available and truthy (non-None, non-empty), else the
BeautifulSoup fallback; in both branches `content` is the cleaned text and
`text_length` its length. -/
def extractContent (env : ScrapeEnv) (url html : String) : ScrapedContent :=
  let bs4Result : ScrapedContent :=
    let cleaned := cleanText (env.bs4Text html)
    { url := url, title := env.titleOf html, content := cleaned,
      textLength := cleaned.length, success := true,
      errorMessage := none, method := some "beautifulsoup" }
  if env.scrapingAvailable then
    match env.trafilatura html with
    | some body =>
      if body = "" then bs4Result
      else
        let cleaned := cleanText body
        { url := url, title := env.titleOf html, content := cleaned,
          textLength := cleaned.length, success := true,
          errorMessage := none, method := some "trafilatura" }
    | none => bs4Result
  else bs4Result

/-- The failure value returned after the retry loop (line 94). -/
def scrapeFailure (url errorMsg : String) : ScrapedContent :=
  { url := url, title := "", content := "", textLength := 0,
    success := false, errorMessage := some errorMsg, method := none }

/-- The retry loop of `scrape_url` (lines 57-94), from attempt number
`attempt` with `remaining = maxRetries - attempt` iterations left,
accumulated `error_msg` and the backoff-sleep trace. Returns the result,
the number of attempts consumed, and the list of sleep durations
(`2 ** attempt`, slept only in the `except` branch and only when more
attempts remain). -/
def scrapeGo (env : ScrapeEnv) (url : String) (maxRetries : Nat)
    (outcomes : Nat → FetchOutcome) : (remaining attempt : Nat) →
    (errorMsg : String) → (sleeps : List Nat) →
    ScrapedContent × Nat × List Nat
  | 0, _, errorMsg, sleeps => (scrapeFailure url errorMsg, maxRetries, sleeps)
  | remaining + 1, attempt, _, sleeps =>
    match outcomes attempt with
    | .ok html => (extractContent env url html, attempt + 1, sleeps)
    | .httpError status =>
      scrapeGo env url maxRetries outcomes remaining (attempt + 1)
        ("HTTP " ++ toString status) sleeps
    | .exn msg =>
      scrapeGo env url maxRetries outcomes remaining (attempt + 1) msg
        (sleeps ++ if attempt < maxRetries - 1 then [2 ^ attempt] else [])

/-- `WebScraperAgent.scrape_url`: run the retry loop over
`range(max_retries)` from attempt 0 with empty `error_msg`. The
rate-limit sleep before the loop is not part of the backoff trace. -/
def scrapeUrl (env : ScrapeEnv) (url : String) (maxRetries : Nat)
    (outcomes : Nat → FetchOutcome) : ScrapedContent × Nat × List Nat :=
  scrapeGo env url maxRetries outcomes maxRetries 0 "" []

/-! ## RAG agent (`rag_agent.py`, `ImprovedRAGAgent`) -/

/-- The start offsets `range(0, n, step)` of the chunk loop, for a
positive step: `0, step, 2*step, ...` below `n`. -/
def chunkStarts (step n : Nat) : List Nat :=
  List.range' 0 ((n + step - 1) / step) step

/-- One chunk of `_chunk_text` (lines 46-52): the window
`words[start : start + chunkSize]`, preprocessed and joined, with its
word count and its 0-based index within this document. -/
def mkChunk (chunkSize : Nat) (words : List String) (url : String)
    (idx start : Nat) : DocumentChunk :=
  let cw := (words.drop start).take chunkSize
  { content := preprocessText (joinSpace cw)
    sourceUrl := url
    chunkIndex := idx
    wordCount := cw.length }

/-- The chunk loop of `_chunk_text` over an already-split word list, for a
positive advance step. -/
def chunkWords (chunkSize step : Nat) (words : List String) (url : String) :
    List DocumentChunk :=
  (chunkStarts step words.length).enum.map
    (fun p => mkChunk chunkSize words url p.1 p.2)

/-- `ImprovedRAGAgent._chunk_text` (lines 42-53) with the Python `range`
semantics for the step `chunk_size - chunk_overlap` computed over the
integers: a positive step chunks normally, a negative step makes
`range(0, n, step)` empty (no chunks), and a zero step raises
`ValueError: range() arg 3 must not be zero`. -/
def chunkTextE (chunkSize chunkOverlap : Nat) (text url : String) :
    Except String (List DocumentChunk) :=
  if chunkOverlap < chunkSize then
    .ok (chunkWords chunkSize (chunkSize - chunkOverlap) (pySplit text) url)
  else if chunkSize < chunkOverlap then .ok []
  else .error "range() arg 3 must not be zero"

/-- The deduplicated word set of a string, as a list without duplicates
(standing for the Python `set` of `.split()`). -/
def pyWordSet (s : String) : List String := (pySplit s).dedup

/-- The union underlying `query_words.union(chunk_words)` in
`_calculate_keyword_similarity`, as a duplicate-free list. -/
def keywordUnion (query chunkContent : String) : List String :=
  let qw := pyWordSet (preprocessText query)
  let cw := pyWordSet chunkContent
  qw ++ cw.filter (fun w => ¬ w ∈ qw)

/-- `ImprovedRAGAgent._calculate_keyword_similarity` (lines 81-86):
Jaccard index of the preprocessed query word set and the (already
preprocessed) chunk content word set; 0 for an empty query word set or
an empty union. -/
def keywordSimilarity (query chunkContent : String) : ℚ :=
  let qw := pyWordSet (preprocessText query)
  let cw := pyWordSet chunkContent
  if qw = [] then 0
  else
    let inter := (qw.filter (fun w => w ∈ cw)).length
    let union := (keywordUnion query chunkContent).length
    if 0 < union then (inter : ℚ) / union else 0

/-- The mutable state of an `ImprovedRAGAgent`, polymorphic in the
embedding-vector type `E` (one row of the embedding matrix). `index` is
not modelled separately: the FAISS index is rebuilt from `embeddings`
whenever they change, and `self.index` is non-None exactly when
`self.embeddings` is. -/
structure RAGState (E : Type) where
  chunkSize : Nat
  chunkOverlap : Nat
  useEmbeddings : Bool
  documentChunks : List DocumentChunk
  embeddings : Option (List E)

/-- `ImprovedRAGAgent.__init__` (lines 20-35): record the configuration,
start with no chunks and no embedding matrix; embedding mode is the
conjunction of the flag and library availability. No validation of any
kind is performed. -/
def initAgent (E : Type) (chunkSize chunkOverlap : Nat)
    (useEmbeddings embeddingsAvailable : Bool) : RAGState E :=
  { chunkSize := chunkSize
    chunkOverlap := chunkOverlap
    useEmbeddings := useEmbeddings && embeddingsAvailable
    documentChunks := []
    embeddings := none }

/-- The document filter of `index_documents` line 59:
`doc.success and doc.content and len(doc.content.strip()) > 100`. -/
def eligibleDoc (d : ScrapedContent) : Bool :=
  d.success && d.content ≠ "" && decide (100 < d.content.trim.length)

/-- `ImprovedRAGAgent.index_documents` (lines 55-79): chunk every eligible
document, append the new chunks, and in embedding mode with a non-empty
batch, encode the contents of the new chunks and append the rows to the
embedding matrix (`np.vstack`, or the fresh matrix when it was `None`).
`encode` is the external SentenceTransformer. A chunking `ValueError`
propagates before any state is modified (the chunk loop precedes the
`extend`). -/
def indexDocuments {E : Type} (encode : String → E) (st : RAGState E)
    (docs : List ScrapedContent) : Except String (RAGState E) := do
  let chunkLists ← (docs.filter eligibleDoc).mapM
    (fun d => chunkTextE st.chunkSize st.chunkOverlap d.content d.url)
  let newChunks := chunkLists.flatten
  let st2 := { st with documentChunks := st.documentChunks ++ newChunks }
  if st.useEmbeddings && !newChunks.isEmpty then
    return { st2 with
      embeddings := some (st.embeddings.getD [] ++
        newChunks.map (fun c => encode c.content)) }
  else
    return st2

/-- A sequence of `index_documents` calls on one agent; a call that raises
leaves the agent state unchanged (the exception fires before
`self.document_chunks.extend`). -/
def runIndex {E : Type} (encode : String → E) :
    RAGState E → List (List ScrapedContent) → RAGState E
  | st, [] => st
  | st, docs :: rest =>
    match indexDocuments encode st docs with
    | .ok st2 => runIndex encode st2 rest
    | .error _ => runIndex encode st rest

/-- Number of rows of the stored embedding matrix (`None` has none). -/
def embRows {E : Type} (st : RAGState E) : Nat := (st.embeddings.getD []).length

/-- The index-alignment invariant: as many chunks as embedding rows. -/
def aligned {E : Type} (st : RAGState E) : Prop :=
  st.documentChunks.length = embRows st

/-- Descending comparator for `sort(reverse=True, key=lambda x: x[0])`
over (score, chunk) pairs, ties keeping original order. -/
def scoreLe (a b : ℚ × DocumentChunk) : Bool := decide (b.1 ≤ a.1)

/-- The empty-index early return of `query` (line 95). -/
def emptyIndexResult (q : String) : RAGResult :=
  { query := q, relevantChunks := [], generatedResponse :=
      "No indexed documents available.",
    confidenceScore := 0, sources := [], retrievalTime := 0,
    generationTime := 0 }

/-- `ImprovedRAGAgent.query` (lines 88-141). `faissNeighbors` is the
external FAISS search: given the preprocessed query and `k_search`, the
(inner-product score, chunk row index) pairs. Wall-clock timings are
abstracted to 0 (the empty-index branch returns literal zeros as in the
code); `list(set(...))` for `sources` is modelled as order-normalising
dedup. Scores are carried in pairs rather than mutating chunk metadata. -/
def ragQuery {E : Type} (st : RAGState E)
    (faissNeighbors : String → Nat → List (ℚ × Nat)) (q : String)
    (topK : Nat) : RAGResult :=
  if st.documentChunks.isEmpty then emptyIndexResult q
  else
    let scoredSorted :=
      if st.useEmbeddings && st.embeddings.isSome then
        let kSearch := min (topK * 3) st.documentChunks.length
        let candidates := (faissNeighbors (preprocessText q) kSearch).map
          (fun p =>
            let chunk := st.documentChunks.getD p.2 default
            ((7 : ℚ) / 10 * p.1 +
              (3 : ℚ) / 10 * keywordSimilarity q chunk.content, chunk))
        candidates.mergeSort scoreLe
      else
        ((st.documentChunks.map
            (fun c => (keywordSimilarity q c.content, c))).filter
          (fun p => decide (0 < p.1))).mergeSort scoreLe
    let relevant := scoredSorted.take topK
    let relevantChunks := relevant.map (fun p => p.2)
    let response :=
      if relevantChunks.isEmpty then
        "No relevant information found for query: " ++ q
      else
        "Based on the retrieved context for \x27" ++ q ++
          "\x27, here is a summary:\n\n" ++
          String.intercalate "\n\n" ((relevant.take 3).map
            (fun p => "Source: " ++ p.2.sourceUrl ++ "\n" ++ p.2.content))
    let confidence : ℚ :=
      if relevantChunks.isEmpty then 0
      else (relevant.map (fun p => p.1)).sum / relevant.length
    { query := q
      relevantChunks := relevantChunks
      generatedResponse := response
      confidenceScore := confidence
      sources := (relevantChunks.map (fun c => c.sourceUrl)).dedup
      retrievalTime := 0
      generationTime := 0 }

/-! ## Concrete inputs for scenarios -/

/-- A document of exactly 1200 whitespace-separated words. -/
def text1200 : String := joinSpace (List.replicate 1200 "w")

/-- A concrete scraping environment (extraction collaborators). -/
def env0 : ScrapeEnv :=
  { scrapingAvailable := true, trafilatura := fun _ => none,
    titleOf := fun _ => "No Title", bs4Text := fun _ => "" }

/-- A server that answers HTTP 503 on every attempt. -/
def always503 : Nat → FetchOutcome := fun _ => .httpError 503

/-- A connection that raises on every attempt. -/
def alwaysExn : Nat → FetchOutcome := fun _ => .exn "boom"

/-- The single indexed chunk of the keyword-retrieval scenario (already
preprocessed, as `_chunk_text` stores it). -/
def chunkAGI : DocumentChunk :=
  { content := "artificial general intelligence is",
    sourceUrl := "http://e.com", chunkIndex := 0, wordCount := 4 }

/-- A keyword-only agent state holding that one chunk. -/
def stAGI : RAGState Unit :=
  { chunkSize := 512, chunkOverlap := 64, useEmbeddings := false,
    documentChunks := [chunkAGI], embeddings := none }

/-! ## Lemmas: aggregator merge loop -/

theorem addResults_eq (rs : List SearchResult) (acc : List SearchResult)
    (seen : List String) :
    addResults rs acc seen =
      (acc ++ dedupNew rs seen,
       seen ++ (dedupNew rs seen).map (fun r => r.url)) := by
  induction rs generalizing acc seen with
  | nil => simp [addResults, dedupNew]
  | cons r rs ih =>
    by_cases h : r.url ∈ seen
    · simp [addResults, dedupNew, h, ih]
    · simp [addResults, dedupNew, h, ih]

theorem mergeAux_eq (resps : List SearchResponse) (acc : List SearchResult)
    (seen srcs : List String) :
    (mergeAux resps acc seen srcs).1 = acc ++ mergeNew resps seen ∧
    (mergeAux resps acc seen srcs).2.1 =
      seen ++ (mergeNew resps seen).map (fun r => r.url) := by
  induction resps generalizing acc seen srcs with
  | nil => simp [mergeAux, mergeNew]
  | cons resp rest ih =>
    by_cases h : resp.success
    · simp only [mergeAux, mergeNew, h, if_true, addResults_eq]
      refine ⟨?_, ?_⟩
      · rw [(ih _ _ _).1, List.append_assoc]
      · rw [(ih _ _ _).2, List.append_assoc, ← List.map_append]
    · simp [mergeAux, mergeNew, h, ih]

theorem dedupNew_urls (rs : List SearchResult) : ∀ seen : List String,
    ((dedupNew rs seen).map (fun r => r.url)).Nodup ∧
    ∀ u ∈ (dedupNew rs seen).map (fun r => r.url), u ∉ seen := by
  induction rs with
  | nil => intro seen; simp [dedupNew]
  | cons r rs ih =>
    intro seen
    by_cases h : r.url ∈ seen
    · simpa [dedupNew, h] using ih seen
    · have hrec := ih (seen ++ [r.url])
      simp only [dedupNew, h, if_false, List.map_cons, ite_false]
      refine ⟨List.nodup_cons.mpr ⟨?_, hrec.1⟩, ?_⟩
      · intro hmem
        have := hrec.2 _ hmem
        simp at this
      · intro u hu
        rcases List.mem_cons.mp hu with hq | hq
        · simpa [hq] using h
        · have := hrec.2 _ hq
          simp at this
          exact this.1

theorem mergeNew_urls (resps : List SearchResponse) : ∀ seen : List String,
    ((mergeNew resps seen).map (fun r => r.url)).Nodup ∧
    ∀ u ∈ (mergeNew resps seen).map (fun r => r.url), u ∉ seen := by
  induction resps with
  | nil => intro seen; simp [mergeNew]
  | cons resp rest ih =>
    intro seen
    by_cases h : resp.success
    · have hd := dedupNew_urls resp.results seen
      have hrec := ih (seen ++ (dedupNew resp.results seen).map (fun r => r.url))
      simp only [mergeNew, h, if_true, List.map_append]
      refine ⟨List.nodup_append.mpr ⟨hd.1, hrec.1, ?_⟩, ?_⟩
      · intro u hu hu2
        exact hrec.2 _ hu2 (List.mem_append.mpr (Or.inr hu))
      · intro u hu
        rcases List.mem_append.mp hu with hq | hq
        · exact hd.2 _ hq
        · exact fun hc => hrec.2 _ hq (List.mem_append.mpr (Or.inl hc))
    · simpa [mergeNew, h] using ih seen

theorem dedupNew_covers (rs : List SearchResult) : ∀ (seen : List String)
    (x : SearchResult), x ∈ rs →
    x.url ∈ seen ∨ x.url ∈ (dedupNew rs seen).map (fun r => r.url) := by
  induction rs with
  | nil => intro seen x hx; simp at hx
  | cons r rs ih =>
    intro seen x hx
    by_cases h : r.url ∈ seen
    · rcases List.mem_cons.mp hx with hq | hq
      · exact Or.inl (hq ▸ h)
      · simpa [dedupNew, h] using ih seen x hq
    · rcases List.mem_cons.mp hx with hq | hq
      · right
        simp [dedupNew, h, hq]
      · rcases ih (seen ++ [r.url]) x hq with hs | hs
        · rcases List.mem_append.mp hs with hs1 | hs1
          · exact Or.inl hs1
          · right
            simp only [dedupNew, h, if_false, List.map_cons, ite_false]
            simp at hs1
            simp [hs1]
        · right
          simp only [dedupNew, h, if_false, List.map_cons, ite_false]
          exact List.mem_cons_of_mem _ hs

theorem dedupNew_find (rs : List SearchResult) : ∀ (seen : List String)
    (r : SearchResult), r ∈ dedupNew rs seen →
    r.url ∉ seen ∧ rs.find? (fun x => x.url == r.url) = some r := by
  induction rs with
  | nil => intro seen r hr; simp [dedupNew] at hr
  | cons x rs ih =>
    intro seen r hr
    by_cases h : x.url ∈ seen
    · rw [dedupNew, if_pos h] at hr
      have := ih seen r hr
      refine ⟨this.1, ?_⟩
      rw [List.find?_cons_of_neg _ ?_, this.2]
      simp only [beq_iff_eq]
      intro he
      exact this.1 (he ▸ h)
    · rw [dedupNew, if_neg h] at hr
      rcases List.mem_cons.mp hr with hq | hq
      · subst hq
        exact ⟨h, List.find?_cons_of_pos _ (by simp)⟩
      · have := ih (seen ++ [x.url]) r hq
        have hne : r.url ≠ x.url := by
          intro he
          exact this.1 (by simp [he])
        refine ⟨fun hc => this.1 (by simp [hc]), ?_⟩
        rw [List.find?_cons_of_neg _ ?_, this.2]
        simp only [beq_iff_eq]
        exact fun he => hne he.symm

theorem successConcat_cons (resp : SearchResponse)
    (rest : List SearchResponse) :
    successConcat (resp :: rest) =
      (if resp.success = true then resp.results else []) ++
        successConcat rest := by
  by_cases h : resp.success <;> simp [successConcat, h]

theorem mergeNew_find (resps : List SearchResponse) : ∀ (seen : List String)
    (r : SearchResult), r ∈ mergeNew resps seen →
    r.url ∉ seen ∧
      (successConcat resps).find? (fun x => x.url == r.url) = some r := by
  induction resps with
  | nil => intro seen r hr; simp [mergeNew] at hr
  | cons resp rest ih =>
    intro seen r hr
    by_cases h : resp.success
    · rw [mergeNew] at hr
      simp only [h, if_true] at hr
      rw [successConcat_cons]
      simp only [h, if_true]
      rcases List.mem_append.mp hr with hq | hq
      · have := dedupNew_find resp.results seen r hq
        refine ⟨this.1, ?_⟩
        rw [List.find?_append, this.2]
        rfl
      · have := ih _ r hq
        have hseen : r.url ∉ seen := by
          intro hc
          exact this.1 (List.mem_append.mpr (Or.inl hc))
        have hkept : r.url ∉ (dedupNew resp.results seen).map
            (fun x => x.url) := by
          intro hc
          exact this.1 (List.mem_append.mpr (Or.inr hc))
        have hnone : resp.results.find? (fun x => x.url == r.url) = none := by
          rw [List.find?_eq_none]
          intro x hx
          simp only [beq_iff_eq]
          intro he
          rcases dedupNew_covers resp.results seen x hx with hs | hs
          · exact hseen (he ▸ hs)
          · exact hkept (he ▸ hs)
        refine ⟨hseen, ?_⟩
        rw [List.find?_append, hnone, this.2]
        rfl
    · rw [mergeNew] at hr
      simp only [h, if_false, ite_false] at hr
      rw [successConcat_cons]
      simp only [h]
      simpa using ih seen r hr

theorem dedupNew_eq_nil_iff (rs : List SearchResult) (seen : List String) :
    dedupNew rs seen = [] ↔ ∀ r ∈ rs, r.url ∈ seen := by
  induction rs with
  | nil => simp [dedupNew]
  | cons r rs ih =>
    by_cases h : r.url ∈ seen
    · simp [dedupNew, h, ih]
    · simp [dedupNew, h]

theorem mergeNew_eq_nil_iff (resps : List SearchResponse) :
    ∀ seen : List String,
    (mergeNew resps seen = [] ↔
      ∀ resp ∈ resps, resp.success = true → ∀ r ∈ resp.results,
        r.url ∈ seen) := by
  induction resps with
  | nil => intro seen; simp [mergeNew]
  | cons resp rest ih =>
    intro seen
    by_cases h : resp.success
    · rw [mergeNew]
      simp only [h, if_true, List.append_eq_nil]
      constructor
      · rintro ⟨hd, hrec⟩
        have hseen : ∀ r ∈ resp.results, r.url ∈ seen :=
          (dedupNew_eq_nil_iff _ _).mp hd
        intro q hq hsq
        rcases List.mem_cons.mp hq with hq1 | hq1
        · exact hq1 ▸ hseen
        · have := (ih _).mp (by simpa [hd] using hrec) q hq1 hsq
          intro r hr
          have := this r hr
          simpa [hd] using this
      · intro hall
        have hd : dedupNew resp.results seen = [] :=
          (dedupNew_eq_nil_iff _ _).mpr (hall resp (List.mem_cons_self _ _) h)
        refine ⟨hd, ?_⟩
        rw [hd]
        simp only [List.map_nil, List.append_nil]
        exact (ih seen).mpr fun q hq hsq => hall q (List.mem_cons_of_mem _ hq) hsq
    · rw [mergeNew, if_neg h]
      rw [ih seen]
      constructor
      · intro hall q hq hsq
        rcases List.mem_cons.mp hq with hq1 | hq1
        · exact absurd (hq1 ▸ hsq) (by simpa using h)
        · exact hall q hq1 hsq
      · exact fun hall q hq hsq => hall q (List.mem_cons_of_mem _ hq) hsq

/-- The merged result list of `multiSearch`, before ranking/truncation. -/
theorem multiSearch_results (responses : List SearchResponse)
    (numResults : Nat) :
    (multiSearch responses numResults).results =
      ((mergeNew responses []).mergeSort rankLe).take numResults := by
  have h := (mergeAux_eq responses [] [] []).1
  simp only [multiSearch, h, List.nil_append]

theorem multiSearch_success (responses : List SearchResponse)
    (numResults : Nat) :
    (multiSearch responses numResults).success =
      decide (0 < (mergeNew responses []).length) := by
  have h := (mergeAux_eq responses [] [] []).1
  simp only [multiSearch, h, List.nil_append]

/-- C2: for every list of backend responses, the merged result list
returned by `MultiSearchAgent.search` contains no two results with the
same URL, and every returned result is the first-seen result for its URL
in the stream of successful backend results (later duplicates dropped). -/
theorem c2_dedup_unique_urls (responses : List SearchResponse)
    (numResults : Nat) :
    ((multiSearch responses numResults).results).Pairwise
      (fun a b => a.url ≠ b.url) ∧
    ∀ r ∈ (multiSearch responses numResults).results,
      (successConcat responses).find? (fun x => x.url == r.url) = some r := by
  have hperm := List.mergeSort_perm (mergeNew responses []) rankLe
  constructor
  · rw [multiSearch_results]
    have hnodup : (mergeNew responses []).Pairwise
        (fun a b => a.url ≠ b.url) := by
      have := (mergeNew_urls responses []).1
      rw [List.Nodup, List.pairwise_map] at this
      exact this
    have hsorted : ((mergeNew responses []).mergeSort rankLe).Pairwise
        (fun a b => a.url ≠ b.url) :=
      (List.Perm.pairwise_iff (fun h => Ne.symm h) hperm).mpr hnodup
    exact hsorted.sublist (List.take_sublist _ _)
  · intro r hr
    rw [multiSearch_results] at hr
    have hr2 : r ∈ mergeNew responses [] :=
      hperm.mem_iff.mp (List.mem_of_mem_take hr)
    exact (mergeNew_find responses [] r hr2).2

/-- C7: the merged `SearchResponse` has `success=true` iff at least one
backend response succeeded with at least one result; and the
`search_with_semaphore` wrapper converts a raising backend into an empty
`success=false` response (so it does not abort the others). -/
theorem c7_aggregator_success_iff (responses : List SearchResponse)
    (numResults : Nat) :
    ((multiSearch responses numResults).success = true ↔
      ∃ resp ∈ responses, resp.success = true ∧ resp.results ≠ []) ∧
    ∀ (e agentName : String), wrapBackend (.error e) agentName =
      { success := false, results := [], source := agentName,
        totalResults := 0, responseTime := 0, errorMessage := some e } := by
  refine ⟨?_, fun e agentName => rfl⟩
  rw [multiSearch_success, decide_eq_true_iff, List.length_pos,
    ne_eq, mergeNew_eq_nil_iff]
  constructor
  · intro h
    push_neg at h
    obtain ⟨resp, hresp, hs, r, hr, -⟩ := h
    exact ⟨resp, hresp, hs, fun hnil => by simp [hnil] at hr⟩
  · rintro ⟨resp, hresp, hs, hne⟩ hall
    rcases List.exists_mem_of_ne_nil _ hne with ⟨r, hr⟩
    simpa using hall resp hresp hs r hr

/-! ## Lemmas: index alignment -/

theorem indexDocuments_ok {E : Type} (encode : String → E) (st : RAGState E)
    (docs : List ScrapedContent) (st2 : RAGState E)
    (hok : indexDocuments encode st docs = .ok st2)
    (hu : st.useEmbeddings = true) (ha : aligned st) :
    aligned st2 ∧ st2.useEmbeddings = true := by
  cases hm : (docs.filter eligibleDoc).mapM
      (fun d => chunkTextE st.chunkSize st.chunkOverlap d.content d.url) with
  | error e =>
    rw [indexDocuments, hm] at hok
    simp [Bind.bind, Except.bind] at hok
  | ok chunkLists =>
    rw [indexDocuments, hm] at hok
    simp only [Bind.bind, Except.bind] at hok
    by_cases hne : chunkLists.flatten.isEmpty
    · rw [if_neg (by simp [hne])] at hok
      simp only [Pure.pure, Except.pure, Except.ok.injEq] at hok
      have hnil : chunkLists.flatten = [] := by
        simpa [List.isEmpty_iff] using hne
      subst hok
      constructor
      · simpa [aligned, embRows, hnil] using ha
      · exact hu
    · rw [if_pos (by simp [hu, hne])] at hok
      simp only [Pure.pure, Except.pure, Except.ok.injEq] at hok
      subst hok
      constructor
      · simp only [aligned, embRows, List.length_append, Option.getD_some,
          List.length_map]
        rw [aligned, embRows] at ha
        omega
      · exact hu

theorem runIndex_invariant {E : Type} (encode : String → E)
    (calls : List (List ScrapedContent)) : ∀ st : RAGState E,
    st.useEmbeddings = true → aligned st →
    aligned (runIndex encode st calls) ∧
      (runIndex encode st calls).useEmbeddings = true := by
  induction calls with
  | nil => intro st hu ha; exact ⟨ha, hu⟩
  | cons docs rest ih =>
    intro st hu ha
    rw [runIndex]
    cases hok : indexDocuments encode st docs with
    | ok st2 =>
      have := indexDocuments_ok encode st docs st2 hok hu ha
      exact ih st2 this.2 this.1
    | error e => exact ih st hu ha

/-- C1: with embedding mode enabled, after any sequence of
`index_documents` calls on a freshly constructed agent the number of
stored chunks equals the number of rows of the stored embedding matrix. -/
theorem c1_index_alignment (E : Type) (encode : String → E)
    (chunkSize chunkOverlap : Nat) (calls : List (List ScrapedContent)) :
    aligned (runIndex encode (initAgent E chunkSize chunkOverlap true true)
      calls) :=
  (runIndex_invariant encode calls
    (initAgent E chunkSize chunkOverlap true true) rfl rfl).1

/-! ## Empty-index query -/

/-- C3: querying with no indexed chunks returns, for every query string
and every `top_k`, the fixed `RAGResult` with no chunks, the "no indexed
documents" response, confidence 0.0 and zero timings; `ragQuery` is a
total function, so no exception is raised. -/
theorem c3_empty_index_query (E : Type) (st : RAGState E)
    (faissNeighbors : String → Nat → List (ℚ × Nat)) (q : String)
    (topK : Nat) (h : st.documentChunks = []) :
    ragQuery st faissNeighbors q topK =
      { query := q, relevantChunks := [],
        generatedResponse := "No indexed documents available.",
        confidenceScore := 0, sources := [], retrievalTime := 0,
        generationTime := 0 } := by
  simp [ragQuery, h, emptyIndexResult]

/-- Witness for C3 at a freshly constructed agent and a concrete query. -/
theorem c3_empty_index_query_witness :
    ragQuery (initAgent Unit 512 64 true true) (fun _ _ => [])
        "what is AI" 5 =
      { query := "what is AI", relevantChunks := [],
        generatedResponse := "No indexed documents available.",
        confidenceScore := 0, sources := [], retrievalTime := 0,
        generationTime := 0 } :=
  c3_empty_index_query Unit (initAgent Unit 512 64 true true)
    (fun _ _ => []) "what is AI" 5 rfl

/-! ## Lemmas: chunking a 1200-word document -/

theorem splitWordsAux_w (cs : List Char) :
    splitWordsAux ('w' :: ' ' :: cs) [] = "w" :: splitWordsAux cs [] := by
  simp [splitWordsAux]

theorem pySplit_join_replicate :
    ∀ n, 1 ≤ n → pySplit (joinSpace (List.replicate n "w")) =
      List.replicate n "w" := by
  intro n
  induction n with
  | zero => omega
  | succ m ih =>
    intro _
    rcases Nat.eq_zero_or_pos m with hm | hm
    · subst hm; rfl
    · obtain ⟨k, hk⟩ := Nat.exists_eq_add_of_le hm
      have hstep : joinSpace (List.replicate (m + 1) "w") =
          "w" ++ " " ++ joinSpace (List.replicate m "w") := by
        subst hk
        simp [List.replicate, joinSpace]
      have hdata : (joinSpace (List.replicate (m + 1) "w")).data =
          'w' :: ' ' :: (joinSpace (List.replicate m "w")).data := by
        rw [hstep]
        simp [String.data_append]
      rw [pySplit, hdata, splitWordsAux_w, ← pySplit, ih hm]
      rfl

theorem pySplit_text1200 : pySplit text1200 = List.replicate 1200 "w" :=
  pySplit_join_replicate 1200 (by norm_num)

theorem pySplit_text1200_length : (pySplit text1200).length = 1200 := by
  rw [pySplit_text1200, List.length_replicate]

/-- The three chunks produced from any 1200-word text with
`chunk_size=500, chunk_overlap=100` (advance step 400). -/
theorem chunk1200 (text url : String) (h : (pySplit text).length = 1200) :
    chunkTextE 500 100 text url = .ok
      [mkChunk 500 (pySplit text) url 0 0,
       mkChunk 500 (pySplit text) url 1 400,
       mkChunk 500 (pySplit text) url 2 800] := by
  have hs : chunkStarts 400 1200 = [0, 400, 800] := by decide
  rw [chunkTextE, if_pos (by norm_num), chunkWords, h, hs]
  rfl

/-- The word counts of those three chunks. -/
theorem chunk1200_word_counts (text url : String)
    (h : (pySplit text).length = 1200) :
    [mkChunk 500 (pySplit text) url 0 0,
     mkChunk 500 (pySplit text) url 1 400,
     mkChunk 500 (pySplit text) url 2 800].map (fun c => c.wordCount) =
      [500, 500, 400] := by
  simp [mkChunk, List.length_take, List.length_drop, h]

/-- C4 (counterexample): chunking a document of exactly 1200 words with
`chunkSize=500, chunkOverlap=100` does NOT yield word counts
[500, 500, 300]: the third chunk is `words[800:1300]`, i.e. 400 words. -/
theorem c4_counterexample :
    ((chunkTextE 500 100 text1200 "http://e.com").toOption.getD []).map
      (fun c => c.wordCount) ≠ [500, 500, 300] := by
  rw [chunk1200 text1200 "http://e.com" pySplit_text1200_length]
  simp only [Except.toOption, Option.getD_some]
  rw [chunk1200_word_counts text1200 "http://e.com" pySplit_text1200_length]
  decide

/-- C4 (amended): chunking a 1200-word document with `chunkSize=500,
chunkOverlap=100` (advance step 400) produces exactly 3 chunks with
word counts [500, 500, 400], covering the word ranges 0-499, 400-899 and
800-1199 (the last window `words[800:1300]` is truncated to the 400
remaining words, not 300). -/
theorem c4_chunking_1200 (text url : String)
    (h : (pySplit text).length = 1200) :
    ∃ ch, chunkTextE 500 100 text url = .ok ch ∧
      ch.length = 3 ∧
      ch.map (fun c => c.wordCount) = [500, 500, 400] ∧
      ch.map (fun c => c.chunkIndex) = [0, 1, 2] ∧
      ch.map (fun c => c.content) =
        [preprocessText (joinSpace ((pySplit text).take 500)),
         preprocessText (joinSpace (((pySplit text).drop 400).take 500)),
         preprocessText (joinSpace (((pySplit text).drop 800).take 500))] := by
  refine ⟨_, chunk1200 text url h, rfl, chunk1200_word_counts text url h,
    rfl, ?_⟩
  simp [mkChunk]

/-- Witness for C4 at the concrete 1200-word document. -/
theorem c4_chunking_1200_witness :
    ∃ ch, chunkTextE 500 100 text1200 "http://e.com" = .ok ch ∧
      ch.length = 3 ∧
      ch.map (fun c => c.wordCount) = [500, 500, 400] ∧
      ch.map (fun c => c.chunkIndex) = [0, 1, 2] ∧
      ch.map (fun c => c.content) =
        [preprocessText (joinSpace ((pySplit text1200).take 500)),
         preprocessText (joinSpace (((pySplit text1200).drop 400).take 500)),
         preprocessText (joinSpace (((pySplit text1200).drop 800).take 500))] :=
  c4_chunking_1200 text1200 "http://e.com" pySplit_text1200_length

/-! ## Lemmas: scraper retry loop -/

theorem scrapeGo_allFail (env : ScrapeEnv) (url : String) (maxRetries : Nat)
    (outcomes : Nat → FetchOutcome) :
    ∀ (remaining attempt : Nat) (errorMsg : String) (sleeps : List Nat),
    attempt + remaining = maxRetries →
    (∀ i, attempt ≤ i → i < maxRetries → (outcomes i).isOk = false) →
    scrapeGo env url maxRetries outcomes remaining attempt errorMsg sleeps =
      (scrapeFailure url
        (if remaining = 0 then errorMsg
         else failMsg (outcomes (maxRetries - 1))),
       maxRetries,
       sleeps ++ ((List.range' attempt (maxRetries - 1 - attempt)).filter
         (fun i => (outcomes i).isExn)).map (fun i => 2 ^ i)) := by
  intro remaining
  induction remaining with
  | zero =>
    intro attempt errorMsg sleeps hsum hfail
    have h0 : maxRetries - 1 - attempt = 0 := by omega
    simp [scrapeGo, h0]
  | succ k ih =>
    intro attempt errorMsg sleeps hsum hfail
    have hlt : attempt < maxRetries := by omega
    rw [scrapeGo]
    cases ho : outcomes attempt with
    | ok html =>
      have := hfail attempt le_rfl hlt
      rw [ho] at this
      simp [FetchOutcome.isOk] at this
    | httpError status =>
      dsimp only
      rw [ih (attempt + 1) _ sleeps (by omega)
        (fun i hi1 hi2 => hfail i (by omega) hi2)]
      have hmsg : (if k = 0 then "HTTP " ++ toString status
          else failMsg (outcomes (maxRetries - 1))) =
          failMsg (outcomes (maxRetries - 1)) := by
        rcases Nat.eq_zero_or_pos k with hk | hk
        · have ha : maxRetries - 1 = attempt := by omega
          rw [if_pos hk, ha, ho]
          rfl
        · rw [if_neg (show ¬ k = 0 by omega)]
      rw [hmsg, if_neg (Nat.succ_ne_zero k)]
      rcases Nat.lt_or_ge attempt (maxRetries - 1) with hc | hc
      · have hr : maxRetries - 1 - attempt =
            (maxRetries - 1 - (attempt + 1)) + 1 := by omega
        rw [hr, List.range'_succ, List.filter_cons]
        have hex : (outcomes attempt).isExn = false := by
          rw [ho]; rfl
        simp [hex]
      · have h1 : maxRetries - 1 - attempt = 0 := by omega
        have h2 : maxRetries - 1 - (attempt + 1) = 0 := by omega
        rw [h1, h2]
        simp [List.range']
    | exn msg =>
      dsimp only
      have hmsg : (if k = 0 then msg
          else failMsg (outcomes (maxRetries - 1))) =
          failMsg (outcomes (maxRetries - 1)) := by
        rcases Nat.eq_zero_or_pos k with hk | hk
        · have ha : maxRetries - 1 = attempt := by omega
          rw [if_pos hk, ha, ho]
          rfl
        · rw [if_neg (show ¬ k = 0 by omega)]
      rcases Nat.lt_or_ge attempt (maxRetries - 1) with hc | hc
      · rw [if_pos hc]
        rw [ih (attempt + 1) _ _ (by omega)
          (fun i hi1 hi2 => hfail i (by omega) hi2)]
        rw [hmsg, if_neg (Nat.succ_ne_zero k)]
        have hr : maxRetries - 1 - attempt =
            (maxRetries - 1 - (attempt + 1)) + 1 := by omega
        rw [hr, List.range'_succ, List.filter_cons]
        have hex : (outcomes attempt).isExn = true := by
          rw [ho]; rfl
        simp [hex]
      · rw [if_neg (show ¬ attempt < maxRetries - 1 by omega)]
        rw [ih (attempt + 1) _ _ (by omega)
          (fun i hi1 hi2 => hfail i (by omega) hi2)]
        rw [hmsg, if_neg (Nat.succ_ne_zero k)]
        have h1 : maxRetries - 1 - attempt = 0 := by omega
        have h2 : maxRetries - 1 - (attempt + 1) = 0 := by omega
        rw [h1, h2]
        simp [List.range']

/-- C5 (counterexample): a URL answering HTTP 503 on every attempt with
`max_retries=3` is retried 3 times and returns `success=false`, but NO
backoff sleep ever happens: the `2 ** attempt` sleep sits only in the
`except` branch, and a non-200 status does not raise. -/
theorem c5_counterexample :
    (scrapeUrl env0 "http://e.com" 3 always503).2.2 = [] ∧
    (scrapeUrl env0 "http://e.com" 3 always503).2.1 = 3 ∧
    (scrapeUrl env0 "http://e.com" 3 always503).1.success = false ∧
    (scrapeUrl env0 "http://e.com" 3 always503).1.errorMessage =
      some "HTTP 503" := by
  decide

/-- C5 (amended): for a URL whose every fetch attempt fails, `scrape_url`
consumes exactly `max_retries` attempts and returns `success=false` with
the error message of the last attempt, empty content and `text_length=0`; the
exponentially increasing backoff sleep of `2 ** attempt` seconds happens
only after attempts that raised an exception (and never after the last
attempt), not after attempts that received a non-200 HTTP status such as
503. -/
theorem c5_scrape_exhaustion (env : ScrapeEnv) (url : String)
    (maxRetries : Nat) (outcomes : Nat → FetchOutcome)
    (hpos : 0 < maxRetries)
    (hfail : ∀ i, i < maxRetries → (outcomes i).isOk = false) :
    scrapeUrl env url maxRetries outcomes =
      ({ url := url, title := "", content := "", textLength := 0,
         success := false,
         errorMessage := some (failMsg (outcomes (maxRetries - 1))),
         method := none },
       maxRetries,
       ((List.range (maxRetries - 1)).filter
         (fun i => (outcomes i).isExn)).map (fun i => 2 ^ i)) := by
  rw [scrapeUrl, scrapeGo_allFail env url maxRetries outcomes maxRetries 0
    "" [] (by omega) (fun i _ hi => hfail i hi)]
  rw [if_neg (by omega), List.range_eq_range']
  rfl

/-- Witness for C5 at a connection raising on all of 3 attempts: sleeps
1 = 2^0 and 2 = 2^1 seconds between attempts, then fails with the last
message. -/
theorem c5_scrape_exhaustion_witness :
    scrapeUrl env0 "http://e.com" 3 alwaysExn =
      ({ url := "http://e.com", title := "", content := "",
         textLength := 0, success := false, errorMessage := some "boom",
         method := none }, 3, [1, 2]) := by
  rw [c5_scrape_exhaustion env0 "http://e.com" 3 alwaysExn (by norm_num)
    (by decide)]
  decide

/-! ## Scraper field consistency -/

theorem extractContent_textLength (env : ScrapeEnv) (url html : String) :
    (extractContent env url html).textLength =
      (extractContent env url html).content.length := by
  rw [extractContent]
  by_cases hs : env.scrapingAvailable
  · rw [if_pos hs]
    cases ht : env.trafilatura html with
    | some body =>
      dsimp only
      by_cases hb : body = ""
      · rw [if_pos hb]
      · rw [if_neg hb]
    | none => rfl
  · rw [if_neg hs]

theorem scrapeGo_textLength (env : ScrapeEnv) (url : String)
    (maxRetries : Nat) (outcomes : Nat → FetchOutcome) :
    ∀ (remaining attempt : Nat) (errorMsg : String) (sleeps : List Nat),
    ((scrapeGo env url maxRetries outcomes remaining attempt errorMsg
        sleeps).1).textLength =
      ((scrapeGo env url maxRetries outcomes remaining attempt errorMsg
        sleeps).1).content.length := by
  intro remaining
  induction remaining with
  | zero =>
    intro attempt errorMsg sleeps
    rfl
  | succ k ih =>
    intro attempt errorMsg sleeps
    rw [scrapeGo]
    cases ho : outcomes attempt with
    | ok html => exact extractContent_textLength env url html
    | httpError status => exact ih (attempt + 1) _ sleeps
    | exn msg => exact ih (attempt + 1) msg _

/-- C9: every `ScrapedContent` produced by `scrape_url` has
`text_length` equal to the length of its `content` string; a failure
result in particular carries empty content, `text_length=0` and
`success=false`. -/
theorem c9_text_length_consistent (env : ScrapeEnv) (url : String)
    (maxRetries : Nat) (outcomes : Nat → FetchOutcome) :
    ((scrapeUrl env url maxRetries outcomes).1).textLength =
      ((scrapeUrl env url maxRetries outcomes).1).content.length ∧
    ∀ u msg : String, (scrapeFailure u msg).content = "" ∧
      (scrapeFailure u msg).textLength = 0 ∧
      (scrapeFailure u msg).success = false :=
  ⟨scrapeGo_textLength env url maxRetries outcomes maxRetries 0 "" [],
   fun _ _ => ⟨rfl, rfl, rfl⟩⟩

/-! ## Chunker configuration is not validated at construction -/

/-- C8: the claim that `chunkOverlap ≥ chunkSize` fails fast at
construction time is contradicted by the code: `__init__` performs no
validation (construction returns the configured state), and the
zero-advance-step error surfaces only later, inside `_chunk_text` during
indexing, as the `range()` ValueError. -/
theorem c8_no_failfast_validation :
    initAgent Unit 512 512 true true =
      { chunkSize := 512, chunkOverlap := 512, useEmbeddings := true,
        documentChunks := [], embeddings := none } ∧
    chunkTextE 512 512 "some document text" "http://e.com" =
      .error "range() arg 3 must not be zero" := by
  refine ⟨rfl, ?_⟩
  rw [chunkTextE, if_neg (by norm_num), if_neg (by norm_num)]

/-! ## Lemmas: keyword-only retrieval -/

theorem ragQuery_keyword_chunks {E : Type} (st : RAGState E)
    (f : String → Nat → List (ℚ × Nat)) (q : String) (topK : Nat)
    (hu : st.useEmbeddings = false)
    (hne : st.documentChunks.isEmpty = false) :
    (ragQuery st f q topK).relevantChunks =
      ((((st.documentChunks.map
          (fun c => (keywordSimilarity q c.content, c))).filter
        (fun p => decide (0 < p.1))).mergeSort scoreLe).take topK).map
          (fun p => p.2) := by
  rw [ragQuery, if_neg (by simp [hne]), if_neg (by simp [hu])]

theorem keywordScored_mem {E : Type} (st : RAGState E) (q : String)
    (p : ℚ × DocumentChunk)
    (hp : p ∈ (st.documentChunks.map
        (fun c => (keywordSimilarity q c.content, c))).filter
      (fun p => decide (0 < p.1))) :
    p.1 = keywordSimilarity q p.2.content ∧ 0 < p.1 := by
  rw [List.mem_filter] at hp
  obtain ⟨hm, hpos⟩ := hp
  obtain ⟨c, hc, rfl⟩ := List.mem_map.mp hm
  exact ⟨rfl, by simpa using hpos⟩

theorem scoreLe_trans (a b c : ℚ × DocumentChunk) :
    scoreLe a b = true → scoreLe b c = true → scoreLe a c = true := by
  simp only [scoreLe, decide_eq_true_eq]
  exact fun h1 h2 => le_trans h2 h1

theorem scoreLe_total (a b : ℚ × DocumentChunk) :
    (scoreLe a b || scoreLe b a) = true := by
  simp only [scoreLe, Bool.or_eq_true, decide_eq_true_eq]
  exact le_total b.1 a.1

/-- C6: the keyword similarity of query "artificial intelligence" and a
chunk with words {artificial, general, intelligence, is} is exactly
2/4 = 0.5; and in keyword-only mode `query` returns at most `top_k`
chunks, each with strictly positive Jaccard score, sorted in descending
score order. -/
theorem c6_keyword_retrieval :
    keywordSimilarity "artificial intelligence"
        "artificial general intelligence is" = 1 / 2 ∧
    ∀ (E : Type) (st : RAGState E) (f : String → Nat → List (ℚ × Nat))
      (q : String) (topK : Nat), st.useEmbeddings = false →
      (ragQuery st f q topK).relevantChunks.length ≤ topK ∧
      (∀ c ∈ (ragQuery st f q topK).relevantChunks,
        0 < keywordSimilarity q c.content) ∧
      ((ragQuery st f q topK).relevantChunks).Pairwise
        (fun a b => keywordSimilarity q b.content ≤
          keywordSimilarity q a.content) := by
  constructor
  · have h1 : pyWordSet (preprocessText "artificial intelligence") =
        ["artificial", "intelligence"] := by decide
    have h2 : pyWordSet "artificial general intelligence is" =
        ["artificial", "general", "intelligence", "is"] := by decide
    have h3 : keywordUnion "artificial intelligence"
        "artificial general intelligence is" =
        ["artificial", "intelligence", "general", "is"] := by decide
    have h4 : (["artificial", "intelligence"].filter
        (fun w => w ∈ ["artificial", "general", "intelligence", "is"])).length
        = 2 := by decide
    rw [keywordSimilarity, h1, h2, h3, h4]
    norm_num
    decide
  · intro E st f q topK hu
    by_cases hne : st.documentChunks.isEmpty
    · have hempty : (ragQuery st f q topK).relevantChunks = [] := by
        rw [ragQuery, if_pos hne]
        rfl
      simp [hempty]
    · rw [ragQuery_keyword_chunks st f q topK hu
        (Bool.not_eq_true _ ▸ hne)]
      have hperm := List.mergeSort_perm
        ((st.documentChunks.map
          (fun c => (keywordSimilarity q c.content, c))).filter
          (fun p => decide (0 < p.1))) scoreLe
      refine ⟨?_, ?_, ?_⟩
      · rw [List.length_map]
        exact List.length_take_le _ _
      · intro c hc
        rw [List.mem_map] at hc
        obtain ⟨p, hp, rfl⟩ := hc
        have hp2 := hperm.mem_iff.mp (List.mem_of_mem_take hp)
        have hfact := keywordScored_mem st q p hp2
        rw [← hfact.1]
        exact hfact.2
      · have hsorted := List.sorted_mergeSort scoreLe_trans scoreLe_total
          ((st.documentChunks.map
            (fun c => (keywordSimilarity q c.content, c))).filter
            (fun p => decide (0 < p.1)))
        have htake := hsorted.sublist (List.take_sublist topK _)
        rw [List.pairwise_map]
        refine htake.imp_of_mem ?_
        intro a b ha hb hab
        have hfa := keywordScored_mem st q a
          (hperm.mem_iff.mp (List.mem_of_mem_take ha))
        have hfb := keywordScored_mem st q b
          (hperm.mem_iff.mp (List.mem_of_mem_take hb))
        rw [← hfa.1, ← hfb.1]
        simpa [scoreLe] using hab

/-- Witness for C6 in keyword-only mode over the one-chunk state. -/
theorem c6_keyword_retrieval_witness :
    (ragQuery stAGI (fun _ _ => []) "artificial intelligence"
      5).relevantChunks.length ≤ 5 ∧
    (∀ c ∈ (ragQuery stAGI (fun _ _ => [])
        "artificial intelligence" 5).relevantChunks,
      0 < keywordSimilarity "artificial intelligence" c.content) ∧
    ((ragQuery stAGI (fun _ _ => [])
        "artificial intelligence" 5).relevantChunks).Pairwise
      (fun a b => keywordSimilarity "artificial intelligence" b.content ≤
        keywordSimilarity "artificial intelligence" a.content) :=
  c6_keyword_retrieval.2 Unit stAGI (fun _ _ => [])
    "artificial intelligence" 5 rfl

/-- C10: the keyword-similarity computation is a total function which
returns 0 for an empty preprocessed query word set and 0 for an empty
union, and is never negative (no division by zero can occur). -/
theorem c10_keyword_similarity_total (q c : String) :
    0 ≤ keywordSimilarity q c ∧
    (pyWordSet (preprocessText q) = [] → keywordSimilarity q c = 0) ∧
    (keywordUnion q c = [] → keywordSimilarity q c = 0) := by
  refine ⟨?_, ?_, ?_⟩
  · rw [keywordSimilarity]
    by_cases hq : pyWordSet (preprocessText q) = []
    · rw [if_pos hq]
    · rw [if_neg hq]
      by_cases hu : 0 < (keywordUnion q c).length
      · rw [if_pos hu]
        positivity
      · rw [if_neg hu]
  · intro h
    rw [keywordSimilarity, if_pos h]
  · intro h
    rw [keywordSimilarity]
    by_cases hq : pyWordSet (preprocessText q) = []
    · rw [if_pos hq]
    · rw [if_neg hq, if_neg (by rw [h]; simp)]

/-- Witness for C10 at a whitespace-only query (empty word set). -/
theorem c10_keyword_similarity_total_witness :
    keywordSimilarity " " "x" = 0 :=
  (c10_keyword_similarity_total " " "x").2.1 (by decide)

end SearchRag
